import Mathlib

/-!
Shallow embedding of the mailat SDK repository (two Python SDK generations) and
proofs about its webhook signature verification, webhook payload parsing,
HTTP retry transport, and batch-send validation.

Python strings are modelled as `List Char`; Python `int` as Lean `Int`;
fallible operations return `Option`/`Except`.  Calls into the Python standard
library that are external to the repository (hmac/hashlib digests, json.loads)
are modelled as explicit function parameters, so every theorem quantifies over
them.
-/

namespace MailatSpec

/-- Python strings are modelled as lists of characters. -/
abbrev PyStr := List Char

/-- Characters treated as whitespace by Python `int()` stripping
(the ASCII portion of `str.isspace`). -/
def isPySpace (c : Char) : Bool :=
  c = ' ' || c = '\t' || c = '\n' || c = '\r' || c = '\x0b' || c = '\x0c'

/-- Strip leading and trailing whitespace, as Python `int()` does before
parsing its argument. -/
def stripWs (l : PyStr) : PyStr :=
  ((l.dropWhile isPySpace).reverse.dropWhile isPySpace).reverse

/-- Numeric value of a decimal digit character, `none` for any other
character. -/
def digitVal (c : Char) : Option Nat :=
  if '0' ≤ c ∧ c ≤ '9' then some (c.toNat - 48) else none

/-- The decimal digit characters. -/
def digitString : PyStr := ['0', '1', '2', '3', '4', '5', '6', '7', '8', '9']

/-- Decimal digit character for a value below ten. -/
def digitChar : Nat → Char
  | 0 => '0'
  | 1 => '1'
  | 2 => '2'
  | 3 => '3'
  | 4 => '4'
  | 5 => '5'
  | 6 => '6'
  | 7 => '7'
  | 8 => '8'
  | 9 => '9'
  | _ => '0'

/-- Decimal rendering of a natural number, as produced by Python string
formatting of a non-negative `int`. -/
def natChars (n : Nat) : PyStr :=
  if n < 10 then [digitChar n]
  else natChars (n / 10) ++ [digitChar (n % 10)]
termination_by n
decreasing_by
  exact Nat.div_lt_self (by omega) (by omega)

/-- Decimal rendering of an integer, as produced by Python `f"{i}"`. -/
def intChars (i : Int) : PyStr :=
  if i < 0 then '-' :: natChars i.natAbs else natChars i.toNat

/-- Continuation of Python `int()` digit parsing after at least one digit has
been consumed into `acc`; a single underscore is permitted between digits. -/
def parseDigitsRest (acc : Nat) : PyStr → Option Nat
  | [] => some acc
  | c :: rest =>
    if c = '_' then
      match rest with
      | [] => none
      | c2 :: rest2 =>
        match digitVal c2 with
        | some d => parseDigitsRest (acc * 10 + d) rest2
        | none => none
    else
      match digitVal c with
      | some d => parseDigitsRest (acc * 10 + d) rest
      | none => none

/-- Python `int()` parsing of an unsigned digit sequence (with underscore
separators); `none` when the sequence is empty or malformed. -/
def parseDigits : PyStr → Option Nat
  | [] => none
  | c :: rest =>
    match digitVal c with
    | some d => parseDigitsRest d rest
    | none => none

/-- Python `int(s)`: strip whitespace, accept an optional sign followed by a
digit sequence; `none` models `int` raising `ValueError`. -/
def pyToInt (l : PyStr) : Option Int :=
  match stripWs l with
  | [] => none
  | c :: rest =>
    if c = '+' then (parseDigits rest).map (fun n => (n : Int))
    else if c = '-' then (parseDigits rest).map (fun n => -(n : Int))
    else (parseDigits (c :: rest)).map (fun n => (n : Int))

/-- Python `s.split(sep)` for a one-character separator: splits on every
occurrence, keeping empty pieces. -/
def splitOnChar (sep : Char) : PyStr → List PyStr
  | [] => [[]]
  | c :: rest =>
    if c = sep then [] :: splitOnChar sep rest
    else
      match splitOnChar sep rest with
      | [] => [[c]]
      | p :: ps => (c :: p) :: ps

/-- Python `p.split("=", 1)` restricted to pieces that contain `=`: the text
before the first `=` and everything after it; `none` when `=` is absent
(such pieces are filtered out by the signature parser). -/
def splitEqOnce : PyStr → Option (PyStr × PyStr)
  | [] => none
  | c :: rest =>
    if c = '=' then some ([], rest)
    else
      match splitEqOnce rest with
      | none => none
      | some (k, v) => some (c :: k, v)

/-- From `client.py` (packages/sdk-python): `dict(p.split("=", 1) for p in
signature.split(",") if "=" in p)`, kept as the ordered list of pairs. -/
def parseSigPairs (sig : PyStr) : List (PyStr × PyStr) :=
  (splitOnChar ',' sig).filterMap splitEqOnce

/-- Lookup in an association list, first match wins. -/
def assocGet (key : PyStr) : List (PyStr × PyStr) → Option PyStr
  | [] => none
  | (k, v) :: rest => if k = key then some v else assocGet key rest

/-- Python `dict(pairs).get(key)`: later pairs overwrite earlier ones, so the
last binding of `key` is returned. -/
def dictGet (pairs : List (PyStr × PyStr)) (key : PyStr) : Option PyStr :=
  assocGet key pairs.reverse

/-- The signature-header key `t`. -/
def tKey : PyStr := ['t']

/-- The signature-header key `v1`. -/
def v1Key : PyStr := ['v', '1']

namespace V1

/-- Error class `MailatError` from `packages/sdk-python/mailat/models.py`:
message, HTTP status, optional machine code. -/
structure MailatError where
  message : String
  status : Int
  code : Option String := none
deriving DecidableEq

/-- `Mailat.verify_webhook_signature` from
`packages/sdk-python/mailat/client.py`.  `hmacHex secret msg` abstracts the
Python stdlib call `hmac.new(secret, msg, hashlib.sha256).hexdigest()`;
`now` abstracts `int(time.time())`.  The final comparison models
`hmac.compare_digest`, whose result is equality of the two strings. -/
def verify_webhook_signature (hmacHex : PyStr → PyStr → PyStr) (now : Int)
    (payload sig secret : PyStr) (tolerance : Int) : Bool :=
  match dictGet (parseSigPairs sig) tKey, dictGet (parseSigPairs sig) v1Key with
  | some (tc :: ts), some (vc :: vs) =>
    match pyToInt (tc :: ts) with
    | none => false
    | some timestamp =>
      if |now - timestamp| > tolerance then false
      else decide (vc :: vs = hmacHex secret (intChars timestamp ++ '.' :: payload))
  | _, _ => false

/-- `Mailat.parse_webhook_payload` from
`packages/sdk-python/mailat/client.py`.  `jsonLoads` abstracts the stdlib
`json.loads` call plus the `WebhookPayload(**data)` construction; it is only
applied after the signature check succeeds. -/
def parse_webhook_payload {α : Type} (hmacHex : PyStr → PyStr → PyStr) (now : Int)
    (jsonLoads : PyStr → α) (payload sig secret : PyStr) : Except MailatError α :=
  if verify_webhook_signature hmacHex now payload sig secret 300 then
    .ok (jsonLoads payload)
  else
    .error { message := "Invalid webhook signature", status := 401 }

end V1

/-- Parsed JSON values, as returned by `response.json()`. -/
inductive Json where
  | null
  | bool (b : Bool)
  | num (n : Int)
  | str (s : String)
  | arr (elems : List Json)
  | obj (fields : List (String × Json))

/-- Dictionary lookup on a parsed JSON object (`dict.get(key)`); keys of a
parsed JSON object are unique, first match wins. -/
def jsonLookup (key : String) : List (String × Json) → Option Json
  | [] => none
  | (k, v) :: rest => if k = key then some v else jsonLookup key rest

/-- Python truthiness of a JSON value (`None`, `False`, `0`, `""`, `[]` and
`{}` are falsy). -/
def jsonFalsy : Json → Bool
  | .null => true
  | .bool b => !b
  | .num n => decide (n = 0)
  | .str s => decide (s = "")
  | .arr elems => elems.isEmpty
  | .obj fields => fields.isEmpty

namespace V2

/-- Exception taxonomy of `sdks/python/mailat/exceptions.py`.  Each
constructor mirrors one exception class; fixed status codes (401, 404, 429,
400, 500) live in the class definitions and are not repeated here. -/
inductive SdkError where
  | mailatError (message : Json) (status_code : Int) (response : Option Json)
  | authenticationError (message : Json)
  | rateLimitError (message : Json) (retry_after : Option Int)
  | validationError (message : Json) (errors : Json)
  | notFoundError (message : Json)
  | serverError (message : Json)

/-- A raised Python exception: either one of the SDK's `MailatError` family
or an uncaught builtin exception (`ValueError` from `int()`,
`AttributeError` from `.get` on a non-dict). -/
inductive PyRaise where
  | sdk (e : SdkError)
  | builtin (nm : String)

/-- One HTTP response as seen by `Mailat.request`: the status code, the raw
`Retry-After` header when present, and the parsed JSON body (`none` models a
body that `response.json()` fails to parse, which the code turns into `{}`). -/
structure HttpResponse where
  status : Int
  retryAfter : Option PyStr := none
  body : Option Json := none

/-- Outcome of one send attempt: a transport-level failure
(`httpx.TimeoutException` or `httpx.NetworkError`, carrying `str(e)`) or an
HTTP response. -/
inductive AttemptOutcome where
  | netFail (msg : String)
  | response (resp : HttpResponse)

/-- Result of one `Mailat.request` call: the returned value or raised
exception, the backoff sleep durations in order, and the number of attempts
performed. -/
structure ExecResult where
  outcome : Except PyRaise Json
  sleeps : List Int
  attempts : Nat

/-- `Mailat._handle_error` from `sdks/python/mailat/client.py`, given the
status code, parsed body and `Retry-After` header of a non-success response.
The returned `PyRaise` is the exception the Python method raises. -/
def handle_error (status_code : Int) (data : Json) (retryAfterHeader : Option PyStr) :
    PyRaise :=
  match data with
  | .obj fields =>
    let message := (jsonLookup "message" fields).getD (.str "Unknown error")
    if status_code = 401 then .sdk (.authenticationError message)
    else if status_code = 404 then .sdk (.notFoundError message)
    else if status_code = 429 then
      match retryAfterHeader with
      | none => .sdk (.rateLimitError message none)
      | some [] => .sdk (.rateLimitError message none)
      | some (c :: cs) =>
        match pyToInt (c :: cs) with
        | some n => .sdk (.rateLimitError message (some n))
        | none => .builtin "ValueError"
    else if status_code = 400 then
      .sdk (.validationError message
        (match jsonLookup "errors" fields with
         | some e => if jsonFalsy e then .obj [] else e
         | none => .obj []))
    else if status_code ≥ 500 then .sdk (.serverError message)
    else .sdk (.mailatError message status_code (some data))
  | _ => .builtin "AttributeError"

/-- The success return `data.get("data", data)` of `Mailat.request`; calling
`.get` on a non-dict raises `AttributeError`. -/
def successValue (data : Json) : Except PyRaise Json :=
  match data with
  | .obj fields => .ok ((jsonLookup "data" fields).getD (.obj fields))
  | _ => .error (.builtin "AttributeError")

/-- The retry loop of `Mailat.request` from `sdks/python/mailat/client.py`,
starting at attempt index `attempt` with `remaining` further attempts
allowed (`remaining = max_retries - attempt`).  `behavior` maps each attempt
index to what the server/network does on that attempt.  Sleeps record the
arguments of `time.sleep`. -/
def requestAux (behavior : Nat → AttemptOutcome) : Nat → Nat → ExecResult
  | attempt, remaining =>
    match behavior attempt with
    | .netFail msg =>
      match remaining with
      | 0 => ⟨.error (.sdk (.mailatError (.str ("Network error: " ++ msg)) 0 none)), [], 1⟩
      | r + 1 =>
        let rest := requestAux behavior (attempt + 1) r
        ⟨rest.outcome, (2 : Int) ^ attempt :: rest.sleeps, rest.attempts + 1⟩
    | .response resp =>
      let data := resp.body.getD (.obj [])
      if 200 ≤ resp.status ∧ resp.status < 300 then
        ⟨successValue data, [], 1⟩
      else
        match handle_error resp.status data resp.retryAfter with
        | .sdk (.rateLimitError message retry_after) =>
          match remaining with
          | 0 => ⟨.error (.sdk (.rateLimitError message retry_after)), [], 1⟩
          | r + 1 =>
            let delay : Int :=
              match retry_after with
              | some n => if n = 0 then (2 : Int) ^ attempt else n
              | none => (2 : Int) ^ attempt
            let rest := requestAux behavior (attempt + 1) r
            ⟨rest.outcome, delay :: rest.sleeps, rest.attempts + 1⟩
        | e => ⟨.error e, [], 1⟩

/-- `Mailat.request`: the loop `for attempt in range(self.max_retries + 1)`
starts at attempt 0 with `max_retries` retries remaining. -/
def request (behavior : Nat → AttemptOutcome) (max_retries : Nat) : ExecResult :=
  requestAux behavior 0 max_retries

/-- Python `signature.replace("sha256=", "")`: remove every non-overlapping
occurrence of `sha256=`, scanning left to right. -/
def stripSha256 : PyStr → PyStr
  | 's' :: 'h' :: 'a' :: '2' :: '5' :: '6' :: '=' :: rest => stripSha256 rest
  | c :: rest => c :: stripSha256 rest
  | [] => []

/-- `WebhooksResource.verify_signature` from
`sdks/python/mailat/resources/webhooks.py`.  `hmacHex secret payload`
abstracts `hmac.new(secret, payload, hashlib.sha256).hexdigest()`; the
`hmac.compare_digest` call is equality of the two strings. -/
def verify_signature (hmacHex : PyStr → PyStr → PyStr)
    (payload sig secret : PyStr) : Bool :=
  decide (hmacHex secret payload = stripSha256 sig)

end V2

/-- One step of a batch-send call: either a client-side `ValueError` raised
before any network activity, or the transport invocation that follows. -/
inductive BatchSendStep (α : Type) where
  | clientError (msg : String)
  | transportCall (path : String) (payloads : List α)

namespace V1

/-- `Emails.send_batch` from `packages/sdk-python/mailat/client.py`: raises
`ValueError` when more than 100 emails are passed, otherwise posts the
marshalled list to `/emails/batch`. -/
def send_batch {α : Type} (emails : List α) : BatchSendStep α :=
  if emails.length > 100 then .clientError "Batch size cannot exceed 100 emails"
  else .transportCall "/emails/batch" emails

end V1

namespace V2

/-- `EmailsResource.send_batch` from
`sdks/python/mailat/resources/emails.py`: builds one payload per email via
`_build_payload` (abstracted as `build`) and posts the list to
`/emails/batch`; there is no client-side size check. -/
def send_batch {α β : Type} (build : α → β) (emails : List α) : BatchSendStep β :=
  .transportCall "/emails/batch" (emails.map build)

end V2

/-! Helper lemmas about the decimal rendering and Python `int()` parsing. -/

/-- Every digit character has the expected `digitVal`. -/
lemma digit_val_mem : ∀ c ∈ digitString, digitVal c = some (c.toNat - 48) := by decide

/-- Digit characters are not underscores. -/
lemma digit_not_underscore : ∀ c ∈ digitString, ¬(c = '_') := by decide

/-- Digit characters are not commas. -/
lemma digit_not_comma : ∀ c ∈ digitString, ¬(c = ',') := by decide

/-- Digit characters are not plus signs. -/
lemma digit_not_plus : ∀ c ∈ digitString, ¬(c = '+') := by decide

/-- Digit characters are not minus signs. -/
lemma digit_not_minus : ∀ c ∈ digitString, ¬(c = '-') := by decide

/-- Digit characters are not whitespace. -/
lemma digit_not_space : ∀ c ∈ digitString, isPySpace c = false := by decide

/-- `digitChar` lands in the digit alphabet below ten. -/
lemma digitChar_mem : ∀ n < 10, digitChar n ∈ digitString := by decide

/-- Value of `digitChar` below ten. -/
lemma digitChar_toNat : ∀ n < 10, (digitChar n).toNat - 48 = n := by decide

/-- Every character of `natChars n` is a decimal digit. -/
lemma natChars_mem (n : Nat) : ∀ c ∈ natChars n, c ∈ digitString := by
  induction n using Nat.strong_induction_on with
  | _ n ih =>
    rw [natChars]
    split
    · next h =>
      intro c hc
      simp only [List.mem_singleton] at hc
      exact hc ▸ digitChar_mem n h
    · next h =>
      intro c hc
      rcases List.mem_append.1 hc with hm | hm
      · exact ih (n / 10) (Nat.div_lt_self (by omega) (by omega)) c hm
      · simp only [List.mem_singleton] at hm
        exact hm ▸ digitChar_mem (n % 10) (Nat.mod_lt _ (by omega))

/-- `natChars` never produces the empty string. -/
lemma natChars_ne_nil (n : Nat) : natChars n ≠ [] := by
  rw [natChars]; split <;> simp

/-- Digit strings parse as the corresponding left fold. -/
lemma parseDigitsRest_digits (l : PyStr) (hl : ∀ c ∈ l, c ∈ digitString) (acc : Nat) :
    parseDigitsRest acc l =
      some (l.foldl (fun a ch => a * 10 + (ch.toNat - 48)) acc) := by
  induction l generalizing acc with
  | nil => rfl
  | cons c rest ih =>
    have hc := hl c (List.mem_cons_self c rest)
    rw [parseDigitsRest.eq_def]
    simp only [if_neg (digit_not_underscore c hc), digit_val_mem c hc, List.foldl_cons]
    exact ih (fun d hd => hl d (List.mem_cons_of_mem _ hd)) _

/-- Folding the digits of `natChars n` recovers `n`. -/
lemma foldl_natChars (n : Nat) : ∀ acc : Nat,
    (natChars n).foldl (fun a ch => a * 10 + (ch.toNat - 48)) acc =
      acc * 10 ^ (natChars n).length + n := by
  induction n using Nat.strong_induction_on with
  | _ n ih =>
    intro acc
    rw [natChars]
    split
    · next h =>
      simp only [List.foldl_cons, List.foldl_nil, List.length_singleton]
      rw [digitChar_toNat n h]
      ring
    · next h =>
      rw [List.foldl_append, List.length_append]
      simp only [List.foldl_cons, List.foldl_nil, List.length_singleton]
      rw [ih (n / 10) (Nat.div_lt_self (by omega) (by omega)) acc]
      rw [digitChar_toNat (n % 10) (Nat.mod_lt _ (by omega))]
      calc (acc * 10 ^ (natChars (n / 10)).length + n / 10) * 10 + n % 10
          = acc * (10 ^ (natChars (n / 10)).length * 10) + (10 * (n / 10) + n % 10) := by
            ring
        _ = acc * 10 ^ ((natChars (n / 10)).length + 1) + n := by
            rw [pow_succ, Nat.div_add_mod]

/-- Parsing the decimal rendering of `n` yields `n`. -/
lemma parseDigits_natChars (n : Nat) : parseDigits (natChars n) = some n := by
  obtain ⟨c, rest, hc⟩ : ∃ c rest, natChars n = c :: rest := by
    cases h : natChars n with
    | nil => exact absurd h (natChars_ne_nil n)
    | cons c r => exact ⟨c, r, rfl⟩
  have hmem := natChars_mem n
  rw [hc] at hmem
  have hcd := hmem c (List.mem_cons_self c rest)
  have hfold : (c :: rest).foldl (fun a ch => a * 10 + (ch.toNat - 48)) 0 = n := by
    rw [← hc, foldl_natChars]
    simp
  rw [hc, parseDigits, digit_val_mem c hcd]
  show parseDigitsRest (c.toNat - 48) rest = some n
  rw [parseDigitsRest_digits rest (fun d hd => hmem d (List.mem_cons_of_mem _ hd))]
  rw [List.foldl_cons] at hfold
  simp only [Nat.zero_mul, Nat.zero_add] at hfold
  rw [hfold]

/-- Strings without whitespace are unchanged by stripping. -/
lemma stripWs_eq_self (l : PyStr) (h : ∀ c ∈ l, isPySpace c = false) : stripWs l = l := by
  have d1 : ∀ m : PyStr, (∀ c ∈ m, isPySpace c = false) → m.dropWhile isPySpace = m := by
    intro m hm
    cases m with
    | nil => rfl
    | cons c r => simp [List.dropWhile, hm c (List.mem_cons_self c r)]
  rw [stripWs, d1 l h, d1 l.reverse (fun c hc => h c (List.mem_reverse.1 hc)),
    List.reverse_reverse]

/-- Python `int()` of the decimal rendering of a natural number. -/
lemma pyToInt_natChars (n : Nat) : pyToInt (natChars n) = some (n : Int) := by
  have hmem := natChars_mem n
  have hstrip : stripWs (natChars n) = natChars n :=
    stripWs_eq_self _ (fun c hc => digit_not_space c (hmem c hc))
  obtain ⟨c, rest, hc⟩ : ∃ c rest, natChars n = c :: rest := by
    cases h : natChars n with
    | nil => exact absurd h (natChars_ne_nil n)
    | cons c r => exact ⟨c, r, rfl⟩
  have hcd : c ∈ digitString := hmem c (hc ▸ List.mem_cons_self c rest)
  rw [pyToInt, hstrip, hc]
  simp only [if_neg (digit_not_plus c hcd), if_neg (digit_not_minus c hcd)]
  rw [← hc, parseDigits_natChars]
  rfl

/-! Helper lemmas about splitting the signature header. -/

/-- Splitting a string that does not contain the separator. -/
lemma splitOnChar_not_mem (sep : Char) (l : PyStr) (h : sep ∉ l) :
    splitOnChar sep l = [l] := by
  induction l with
  | nil => rfl
  | cons c rest ih =>
    have hc : ¬(c = sep) := fun e => h (e ▸ List.mem_cons_self c rest)
    have hr : sep ∉ rest := fun m => h (List.mem_cons_of_mem _ m)
    simp [splitOnChar, hc, ih hr]

/-- Splitting around a single separator occurrence. -/
lemma splitOnChar_append (sep : Char) (a b : PyStr) (ha : sep ∉ a) :
    splitOnChar sep (a ++ sep :: b) = a :: splitOnChar sep b := by
  induction a with
  | nil => simp [splitOnChar]
  | cons c a2 ih =>
    have hc : ¬(c = sep) := fun e => ha (e ▸ List.mem_cons_self c a2)
    have ha2 : sep ∉ a2 := fun m => ha (List.mem_cons_of_mem _ m)
    simp [splitOnChar, hc, ih ha2]

/-- Splitting a `key=value` piece at its first `=`. -/
lemma splitEqOnce_append (k v : PyStr) (hk : '=' ∉ k) :
    splitEqOnce (k ++ '=' :: v) = some (k, v) := by
  induction k with
  | nil => simp [splitEqOnce]
  | cons c k2 ih =>
    have hc : ¬(c = '=') := fun e => hk (e ▸ List.mem_cons_self c k2)
    have hk2 : '=' ∉ k2 := fun m => hk (List.mem_cons_of_mem _ m)
    simp [splitEqOnce, hc, ih hk2]

/-- Parsing a well-formed `t=...,v1=...` signature header. -/
lemma parseSigPairs_std (tv digest : PyStr) (h1 : ',' ∉ tv) (h2 : ',' ∉ digest) :
    parseSigPairs (['t', '='] ++ tv ++ [','] ++ ['v', '1', '='] ++ digest) =
      [(['t'], tv), (['v', '1'], digest)] := by
  have e1 : ['t', '='] ++ tv ++ [','] ++ ['v', '1', '='] ++ digest =
      (['t', '='] ++ tv) ++ ',' :: (['v', '1', '='] ++ digest) := by
    simp
  have hcomma1 : ',' ∉ ['t', '='] ++ tv := by
    intro hm
    rcases List.mem_append.1 hm with hm | hm
    · revert hm; decide
    · exact h1 hm
  have hcomma2 : ',' ∉ ['v', '1', '='] ++ digest := by
    intro hm
    rcases List.mem_append.1 hm with hm | hm
    · revert hm; decide
    · exact h2 hm
  have s1 : splitEqOnce ('t' :: '=' :: tv) = some (['t'], tv) := by
    have e : 't' :: '=' :: tv = ['t'] ++ '=' :: tv := rfl
    rw [e, splitEqOnce_append _ _ (by decide)]
  have s2 : splitEqOnce ('v' :: '1' :: '=' :: digest) = some (['v', '1'], digest) := by
    have e : 'v' :: '1' :: '=' :: digest = ['v', '1'] ++ '=' :: digest := rfl
    rw [e, splitEqOnce_append _ _ (by decide)]
  rw [parseSigPairs, e1, splitOnChar_append _ _ _ hcomma1,
    splitOnChar_not_mem _ _ hcomma2]
  simp [List.filterMap_cons, s1, s2]

/-- `natChars` never contains a comma. -/
lemma natChars_no_comma (n : Nat) : ',' ∉ natChars n :=
  fun h => digit_not_comma ',' (natChars_mem n ',' h) rfl

/-- Rendering a natural number as a Python `int` is `natChars`. -/
lemma intChars_natCast (n : Nat) : intChars (n : Int) = natChars n := by
  rw [intChars, if_neg (not_lt.2 (Int.natCast_nonneg n))]
  norm_num

/-- C1: for every payload, secret and non-negative tolerance, a signature
header built as `t={now},v1={HMAC-SHA256(secret, "{now}.{payload}")}` — the
digest being a nonempty comma-free string, as a lowercase hex digest always
is — verifies at time `now`, and the same header fails to verify at time
`now + tolerance + 1`. -/
theorem webhook_sign_verify_roundtrip (hmacHex : PyStr → PyStr → PyStr)
    (now : Nat) (payload secret : PyStr) (tolerance : Int) (htol : 0 ≤ tolerance)
    (digest : PyStr) (hdig : digest = hmacHex secret (natChars now ++ '.' :: payload))
    (hne : digest ≠ []) (hcomma : ',' ∉ digest) :
    V1.verify_webhook_signature hmacHex (now : Int) payload
      (['t', '='] ++ natChars now ++ [','] ++ ['v', '1', '='] ++ digest) secret
      tolerance = true ∧
    V1.verify_webhook_signature hmacHex ((now : Int) + tolerance + 1) payload
      (['t', '='] ++ natChars now ++ [','] ++ ['v', '1', '='] ++ digest) secret
      tolerance = false := by
  have hpairs := parseSigPairs_std (natChars now) digest (natChars_no_comma now) hcomma
  obtain ⟨tc, ts, hts⟩ : ∃ c r, natChars now = c :: r := by
    cases h : natChars now with
    | nil => exact absurd h (natChars_ne_nil now)
    | cons c r => exact ⟨c, r, rfl⟩
  obtain ⟨vc, vs, hvs⟩ : ∃ c r, digest = c :: r := by
    cases h : digest with
    | nil => exact absurd h hne
    | cons c r => exact ⟨c, r, rfl⟩
  have hvt : ¬((['v', '1'] : PyStr) = tKey) := by decide
  have htv : ¬((['t'] : PyStr) = v1Key) := by decide
  have hT : dictGet [(['t'], natChars now), (['v', '1'], digest)] tKey =
      some (natChars now) := by
    simp [dictGet, assocGet, hvt]
    rfl
  have hV : dictGet [(['t'], natChars now), (['v', '1'], digest)] v1Key =
      some digest := by
    simp [dictGet, assocGet, htv]
    rfl
  have hint : pyToInt (tc :: ts) = some ((now : Nat) : Int) := by
    rw [← hts]; exact pyToInt_natChars now
  have key : ∀ N : Int, V1.verify_webhook_signature hmacHex N payload
      (['t', '='] ++ natChars now ++ [','] ++ ['v', '1', '='] ++ digest) secret
      tolerance =
      if |N - (now : Int)| > tolerance then false
      else decide (digest = hmacHex secret (intChars (now : Int) ++ '.' :: payload)) := by
    intro N
    simp only [V1.verify_webhook_signature, hpairs]
    rw [hT, hV, hts, hvs]
    simp only [hint]
  constructor
  · rw [key (now : Int)]
    rw [if_neg (by simp [sub_self]; exact htol)]
    rw [decide_eq_true_eq, hdig, intChars_natCast]
  · rw [key ((now : Int) + tolerance + 1)]
    rw [if_pos]
    have : ((now : Int) + tolerance + 1) - (now : Int) = tolerance + 1 := by ring
    rw [this, abs_of_nonneg (by omega)]
    omega

/-- C1 witness: the round-trip theorem applied at a concrete digest
function, payload, secret, time 1000 and tolerance 300. -/
theorem webhook_sign_verify_roundtrip_witness :
    V1.verify_webhook_signature (fun _ _ => ['a', 'b']) ((1000 : Nat) : Int) ['x']
      (['t', '='] ++ natChars 1000 ++ [','] ++ ['v', '1', '='] ++ ['a', 'b']) ['s']
      300 = true ∧
    V1.verify_webhook_signature (fun _ _ => ['a', 'b']) (((1000 : Nat) : Int) + 300 + 1) ['x']
      (['t', '='] ++ natChars 1000 ++ [','] ++ ['v', '1', '='] ++ ['a', 'b']) ['s']
      300 = false :=
  webhook_sign_verify_roundtrip (fun _ _ => ['a', 'b']) 1000 ['x'] ['s'] 300
    (by decide) ['a', 'b'] rfl (by decide) (by decide)

/-- C2: whenever the parsed `key=value` pairs of the signature header lack
the key `t`, lack the key `v1`, or bind `t` to a string that is not a valid
Python integer literal, `verify_webhook_signature` returns false; being a
total function into `Bool`, it never raises. -/
theorem verify_malformed_header_false (hmacHex : PyStr → PyStr → PyStr)
    (now : Int) (payload sig secret : PyStr) (tolerance : Int)
    (h : dictGet (parseSigPairs sig) tKey = none ∨
         dictGet (parseSigPairs sig) v1Key = none ∨
         ∃ ts, dictGet (parseSigPairs sig) tKey = some ts ∧ pyToInt ts = none) :
    V1.verify_webhook_signature hmacHex now payload sig secret tolerance = false := by
  rcases e1 : dictGet (parseSigPairs sig) tKey with _ | ts
  · rcases e2 : dictGet (parseSigPairs sig) v1Key with _ | vs
    · simp [V1.verify_webhook_signature, e1, e2]
    · cases vs with
      | nil => simp [V1.verify_webhook_signature, e1, e2]
      | cons vc vs => simp [V1.verify_webhook_signature, e1, e2]
  · rcases e2 : dictGet (parseSigPairs sig) v1Key with _ | vs
    · cases ts with
      | nil => simp [V1.verify_webhook_signature, e1, e2]
      | cons tc ts => simp [V1.verify_webhook_signature, e1, e2]
    · rcases h with h1 | h1 | ⟨ts0, hts0, hint⟩
      · rw [e1] at h1; exact absurd h1 (by simp)
      · rw [e2] at h1; exact absurd h1 (by simp)
      · rw [e1] at hts0
        cases ts with
        | nil =>
          cases vs with
          | nil => simp [V1.verify_webhook_signature, e1, e2]
          | cons vc vs => simp [V1.verify_webhook_signature, e1, e2]
        | cons tc ts =>
          have hint2 : pyToInt (tc :: ts) = none := by
            have h2 : tc :: ts = ts0 := by injection hts0
            rw [h2]; exact hint
          cases vs with
          | nil => simp [V1.verify_webhook_signature, e1, e2]
          | cons vc vs => simp [V1.verify_webhook_signature, e1, e2, hint2]

/-- C2 witness: a header with a `v1` pair but no `t` pair. -/
theorem verify_malformed_header_false_witness :
    V1.verify_webhook_signature (fun _ _ => ['a']) 0 ['p']
      ['v', '1', '=', 'a'] ['s'] 300 = false :=
  verify_malformed_header_false (fun _ _ => ['a']) 0 ['p'] ['v', '1', '=', 'a'] ['s'] 300
    (Or.inl (by decide))

/-- C3: when signature verification fails, `parse_webhook_payload` raises
`MailatError("Invalid webhook signature", 401)` — the repository's
authentication failure — and the JSON-parsing step is never reached: the
result is the same for every JSON parser. -/
theorem parse_webhook_rejects_unverified {α : Type}
    (hmacHex : PyStr → PyStr → PyStr) (now : Int) (f g : PyStr → α)
    (payload sig secret : PyStr)
    (hv : V1.verify_webhook_signature hmacHex now payload sig secret 300 = false) :
    V1.parse_webhook_payload hmacHex now f payload sig secret =
      .error { message := "Invalid webhook signature", status := 401, code := none } ∧
    V1.parse_webhook_payload hmacHex now f payload sig secret =
      V1.parse_webhook_payload hmacHex now g payload sig secret := by
  constructor <;> simp [V1.parse_webhook_payload, hv]

/-- C3 witness: a tampered pair of payload and header (the header carries no
valid pairs at all), with two different JSON parsers. -/
theorem parse_webhook_rejects_unverified_witness :
    V1.parse_webhook_payload (fun _ _ => ['a']) 0 (fun _ => (0 : Nat)) ['p'] ['x'] ['s'] =
      .error { message := "Invalid webhook signature", status := 401, code := none } ∧
    V1.parse_webhook_payload (fun _ _ => ['a']) 0 (fun _ => (0 : Nat)) ['p'] ['x'] ['s'] =
      V1.parse_webhook_payload (fun _ _ => ['a']) 0 (fun _ => (1 : Nat)) ['p'] ['x'] ['s'] :=
  parse_webhook_rejects_unverified (fun _ _ => ['a']) 0 (fun _ => (0 : Nat))
    (fun _ => (1 : Nat)) ['p'] ['x'] ['s'] (by decide)

/-- Strings without `=` are unchanged by `sha256=` stripping. -/
lemma stripSha256_no_eq (l : PyStr) (h : '=' ∉ l) : V2.stripSha256 l = l := by
  induction l using V2.stripSha256.induct with
  | case1 rest ih => simp at h
  | case2 c rest hne ih =>
    rw [V2.stripSha256.eq_def]
    split
    · next heq => rw [heq] at h; simp at h
    · next c2 rest2 heq =>
      injection heq with h1 h2
      subst h1; subst h2
      exact congrArg (c :: ·) (ih (fun m => h (List.mem_cons_of_mem _ m)))
    · next heq => exact absurd heq (by simp)
  | case3 => rfl

/-- C10: the prefix-scheme verifier accepts a signature exactly when the
signature with every `sha256=` occurrence removed equals the digest; in
particular a bare digest — which, being lowercase hex, contains no `=` —
verifies without any prefix. -/
theorem verify_signature_iff (hmacHex : PyStr → PyStr → PyStr)
    (payload sig secret : PyStr) :
    (V2.verify_signature hmacHex payload sig secret = true ↔
      V2.stripSha256 sig = hmacHex secret payload) ∧
    ('=' ∉ hmacHex secret payload →
      V2.verify_signature hmacHex payload (hmacHex secret payload) secret = true) := by
  constructor
  · simp [V2.verify_signature, eq_comm]
  · intro h
    simp [V2.verify_signature, stripSha256_no_eq _ h]

/-- C10 witness: a concrete digest function at concrete inputs. -/
theorem verify_signature_iff_witness :
    ('=' ∉ (['a', 'b'] : PyStr)) ∧
    V2.verify_signature (fun _ _ => ['a', 'b']) ['p'] ['a', 'b'] ['k'] = true :=
  ⟨by decide,
    (verify_signature_iff (fun _ _ => ['a', 'b']) ['p'] ['a', 'b'] ['k']).2 (by decide)⟩

/-- C4: with `max_retries = 3`, three consecutive transient failures
followed by a success make `request` return the extracted success payload
after exactly the backoff sleeps 1, 2 and 4 seconds, in that order, on the
fourth attempt. -/
theorem retry_backoff_then_success (behavior : Nat → V2.AttemptOutcome)
    (m0 m1 m2 : String) (resp : V2.HttpResponse)
    (h0 : behavior 0 = .netFail m0) (h1 : behavior 1 = .netFail m1)
    (h2 : behavior 2 = .netFail m2) (h3 : behavior 3 = .response resp)
    (hs1 : 200 ≤ resp.status) (hs2 : resp.status < 300) :
    V2.request behavior 3 =
      ⟨V2.successValue (resp.body.getD (.obj [])), [1, 2, 4], 4⟩ ∧
    (∀ fields, resp.body.getD (.obj []) = .obj fields →
      V2.successValue (resp.body.getD (.obj [])) =
        .ok ((jsonLookup "data" fields).getD (.obj fields))) := by
  constructor
  · rw [V2.request]
    simp only [V2.requestAux, h0, h1, h2, h3]
    simp [hs1, hs2]
  · intro fields hf
    rw [hf]
    simp [V2.successValue]

/-- C4 witness: three concrete timeouts then a 200 response with body
`{"data": 7}`. -/
theorem retry_backoff_then_success_witness :
    V2.request
      (fun n => if n < 3 then .netFail "timeout" else
        .response ⟨200, none, some (.obj [("data", .num 7)])⟩) 3 =
      ⟨V2.successValue (Json.obj [("data", Json.num 7)]), [1, 2, 4], 4⟩ :=
  (retry_backoff_then_success _ "timeout" "timeout" "timeout"
    ⟨200, none, some (.obj [("data", .num 7)])⟩
    rfl rfl rfl rfl (by decide) (by decide)).1

/-- C5: with `max_retries = 2` and transient failures on every attempt,
`request` makes exactly 3 attempts (sleeping 1 and 2 seconds between them)
and raises the transport-level `MailatError` with status code 0 — the
spec's `NetworkError`. -/
theorem netfail_exhausts_retries (behavior : Nat → V2.AttemptOutcome)
    (m0 m1 m2 : String)
    (h0 : behavior 0 = .netFail m0) (h1 : behavior 1 = .netFail m1)
    (h2 : behavior 2 = .netFail m2) :
    V2.request behavior 2 =
      ⟨.error (.sdk (.mailatError (.str ("Network error: " ++ m2)) 0 none)),
        [1, 2], 3⟩ := by
  rw [V2.request]
  simp only [V2.requestAux, h0, h1, h2]
  norm_num

/-- C5 witness: a network that always fails. -/
theorem netfail_exhausts_retries_witness :
    V2.request (fun _ => .netFail "refused") 2 =
      ⟨.error (.sdk (.mailatError (.str ("Network error: " ++ "refused")) 0 none)),
        [1, 2], 3⟩ :=
  netfail_exhausts_retries _ "refused" "refused" "refused" rfl rfl rfl

/-- C6: a 401 response (with an object or empty body) makes `request` raise
`AuthenticationError` on the very first attempt, with no sleeps and no
retries, for every configured `max_retries`. -/
theorem auth_error_never_retried (behavior : Nat → V2.AttemptOutcome)
    (max_retries : Nat) (resp : V2.HttpResponse) (fields : List (String × Json))
    (h0 : behavior 0 = .response resp) (hst : resp.status = 401)
    (hb : resp.body.getD (.obj []) = .obj fields) :
    V2.request behavior max_retries =
      ⟨.error (.sdk (.authenticationError
          ((jsonLookup "message" fields).getD (.str "Unknown error")))), [], 1⟩ := by
  rw [V2.request, V2.requestAux]
  simp only [h0, hb, hst]
  norm_num [V2.handle_error]

/-- C6 witness: a bare 401 response with `max_retries = 5`. -/
theorem auth_error_never_retried_witness :
    V2.request (fun _ => .response ⟨401, none, none⟩) 5 =
      ⟨.error (.sdk (.authenticationError
          ((jsonLookup "message" ([] : List (String × Json))).getD
            (.str "Unknown error")))), [], 1⟩ :=
  auth_error_never_retried _ 5 ⟨401, none, none⟩ [] rfl rfl rfl

/-- C7: on a 429 response with retries remaining, the loop sleeps the
server-supplied `Retry-After` value (here 5 seconds) before the next
attempt, falls back to `2 ^ attempt` when the header is absent, and raises
`RateLimitError` carrying the retry-after hint when no attempts remain. -/
theorem rate_limit_uses_retry_after (behavior : Nat → V2.AttemptOutcome)
    (attempt r : Nat) (resp : V2.HttpResponse) (fields : List (String × Json))
    (h : behavior attempt = .response resp) (hst : resp.status = 429)
    (hb : resp.body.getD (.obj []) = .obj fields) :
    (resp.retryAfter = some ['5'] →
      V2.requestAux behavior attempt (r + 1) =
        ⟨(V2.requestAux behavior (attempt + 1) r).outcome,
          5 :: (V2.requestAux behavior (attempt + 1) r).sleeps,
          (V2.requestAux behavior (attempt + 1) r).attempts + 1⟩) ∧
    (resp.retryAfter = none →
      V2.requestAux behavior attempt (r + 1) =
        ⟨(V2.requestAux behavior (attempt + 1) r).outcome,
          (2 : Int) ^ attempt :: (V2.requestAux behavior (attempt + 1) r).sleeps,
          (V2.requestAux behavior (attempt + 1) r).attempts + 1⟩) ∧
    (resp.retryAfter = some ['5'] →
      V2.requestAux behavior attempt 0 =
        ⟨.error (.sdk (.rateLimitError
            ((jsonLookup "message" fields).getD (.str "Unknown error")) (some 5))),
          [], 1⟩) := by
  have h5 : pyToInt ['5'] = some 5 := by decide
  refine ⟨fun hra => ?_, fun hra => ?_, fun hra => ?_⟩
  · conv_lhs => rw [V2.requestAux]
    simp only [h, hb, hst, hra]
    norm_num [V2.handle_error, h5]
  · conv_lhs => rw [V2.requestAux]
    simp only [h, hb, hst, hra]
    norm_num [V2.handle_error]
  · rw [V2.requestAux]
    simp only [h, hb, hst, hra]
    norm_num [V2.handle_error, h5]

/-- C7 witness: a 429 response with `Retry-After: 5` and body
`{"message": "slow down"}`, one retry remaining and zero remaining. -/
theorem rate_limit_uses_retry_after_witness :
    (V2.requestAux (fun _ => .response ⟨429, some ['5'], some (.obj [("message", .str "slow down")])⟩) 0 1 =
      ⟨(V2.requestAux (fun _ => .response ⟨429, some ['5'], some (.obj [("message", .str "slow down")])⟩) 1 0).outcome,
        5 :: (V2.requestAux (fun _ => .response ⟨429, some ['5'], some (.obj [("message", .str "slow down")])⟩) 1 0).sleeps,
        (V2.requestAux (fun _ => .response ⟨429, some ['5'], some (.obj [("message", .str "slow down")])⟩) 1 0).attempts + 1⟩) ∧
    (V2.requestAux (fun _ => .response ⟨429, some ['5'], some (.obj [("message", .str "slow down")])⟩) 0 0 =
      ⟨.error (.sdk (.rateLimitError
          ((jsonLookup "message" [("message", .str "slow down")]).getD (.str "Unknown error")) (some 5))),
        [], 1⟩) :=
  ⟨(rate_limit_uses_retry_after _ 0 0 ⟨429, some ['5'], some (.obj [("message", .str "slow down")])⟩
      [("message", .str "slow down")] rfl rfl rfl).1 rfl,
   (rate_limit_uses_retry_after _ 0 0 ⟨429, some ['5'], some (.obj [("message", .str "slow down")])⟩
      [("message", .str "slow down")] rfl rfl rfl).2.2 rfl⟩

/-- C8 (amended): every response body is parsed leniently — an unparsable or
empty body becomes the empty object and is never a hard failure at the
parsing stage — and a 2xx response returns `data.get("data", data)`: the
`data` field when the parsed body is an object containing it, the whole
object otherwise; a 2xx body that parses to a non-object value instead
raises an uncaught `AttributeError`. -/
theorem success_body_extraction (behavior : Nat → V2.AttemptOutcome)
    (max_retries : Nat) (resp : V2.HttpResponse)
    (h0 : behavior 0 = .response resp)
    (hs1 : 200 ≤ resp.status) (hs2 : resp.status < 300) :
    V2.request behavior max_retries =
      ⟨V2.successValue (resp.body.getD (.obj [])), [], 1⟩ ∧
    (∀ fields, resp.body.getD (.obj []) = .obj fields →
      V2.successValue (resp.body.getD (.obj [])) =
        .ok ((jsonLookup "data" fields).getD (.obj fields))) ∧
    (resp.body = none →
      V2.request behavior max_retries = ⟨.ok (.obj []), [], 1⟩) := by
  have hmain : V2.request behavior max_retries =
      ⟨V2.successValue (resp.body.getD (.obj [])), [], 1⟩ := by
    rw [V2.request, V2.requestAux]
    simp only [h0]
    simp [hs1, hs2]
  refine ⟨hmain, fun fields hf => ?_, fun hnone => ?_⟩
  · rw [hf]
    simp [V2.successValue]
  · rw [hmain, hnone]
    rfl

/-- C8 witness: a 204 response with an empty body returns the empty
object. -/
theorem success_body_extraction_witness :
    V2.request (fun _ => .response ⟨204, none, none⟩) 3 =
      ⟨.ok (.obj []), [], 1⟩ :=
  (success_body_extraction (fun _ => .response ⟨204, none, none⟩) 3
    ⟨204, none, none⟩ rfl (by decide) (by decide)).2.2 rfl

/-- C8 counterexample to the claim as stated: a 200 response whose body
parses to the JSON array `[]` does not return the whole parsed body — the
`data.get("data", data)` call raises an uncaught `AttributeError`. -/
theorem success_nonobject_body_raises :
    (V2.request (fun _ => .response ⟨200, none, some (.arr [])⟩) 3).outcome =
      .error (.builtin "AttributeError") := by
  rw [V2.request]
  simp [V2.requestAux, V2.successValue]

/-- C9 (amended): the first-generation `Emails.send_batch` raises the
client-side `ValueError` before any transport call whenever more than 100
emails are passed. -/
theorem send_batch_v1_caps_at_100 {α : Type} (emails : List α)
    (h : emails.length > 100) :
    V1.send_batch emails = .clientError "Batch size cannot exceed 100 emails" := by
  simp [V1.send_batch, h]

/-- C9 witness: a batch of 101 items. -/
theorem send_batch_v1_caps_at_100_witness :
    (List.replicate 101 ()).length > 100 ∧
    V1.send_batch (List.replicate 101 ()) =
      .clientError "Batch size cannot exceed 100 emails" :=
  ⟨by simp, send_batch_v1_caps_at_100 (List.replicate 101 ()) (by simp)⟩

/-- C9 counterexample to the claim as stated: the second-generation
`EmailsResource.send_batch` performs no client-side size check — a batch of
101 items goes straight to the transport. -/
theorem send_batch_v2_no_cap :
    V2.send_batch (fun u : Unit => u) (List.replicate 101 ()) =
      .transportCall "/emails/batch" (List.replicate 101 ()) := by
  simp [V2.send_batch]

end MailatSpec
